import Mathlib

/-!
Verification of the timr clock core (src/widgets/clock.rs).

The clock state machine of clock.rs is embedded shallowly.  The
supporting duration type (DurationEx, from the repository's duration
module, which is not part of the sources at hand) is modelled from the
spec: durations are plain elapsed time values with a fixed resolution of
one tenth of a second, with saturating arithmetic that never goes
negative and never exceeds the maximum representable display value
99:59:59.  A duration is therefore a count of deciseconds (a Nat).
-/

namespace Timr

/-- Modelled from the spec: constant from the duration module (not in src/). -/
def SECS_PER_MINUTE : Nat := 60

/-- Modelled from the spec: constant from the duration module (not in src/). -/
def MINS_PER_HOUR : Nat := 60

/-- Modelled from the spec: one decisecond, the finest granularity (1 unit). -/
def ONE_DECI_SECOND : Nat := 1

/-- Modelled from the spec: one second = 10 deciseconds. -/
def ONE_SECOND : Nat := 10

/-- Modelled from the spec: one minute = 600 deciseconds. -/
def ONE_MINUTE : Nat := 600

/-- Modelled from the spec: one hour = 36000 deciseconds. -/
def ONE_HOUR : Nat := 36000

/-- From clock.rs: max. 99:59:59, i.e.
Duration from 100 * MINS_PER_HOUR * SECS_PER_MINUTE seconds, saturating-minus
ONE_SECOND; in deciseconds: 100 * 60 * 60 * 10 - 10 = 3599990. -/
def MAX_DURATION : Nat := 100 * MINS_PER_HOUR * SECS_PER_MINUTE * 10 - ONE_SECOND

namespace Dur

/-- Modelled from the spec: DurationEx saturating subtraction (saturates at zero);
on Nat this is truncated subtraction. -/
def sat_sub (a b : Nat) : Nat := a - b

/-- Modelled from the spec: DurationEx saturating addition, never exceeding the
maximum representable display value 99:59:59. -/
def sat_add (a b : Nat) : Nat := min (a + b) MAX_DURATION

/-- Modelled from the spec: the hours component of a duration. -/
def hours (a : Nat) : Nat := a / ONE_HOUR

/-- Modelled from the spec: the total minutes of a duration (under the guards of
get_format, where it is only inspected with hours = 0, this coincides with
minutes-within-hour). -/
def minutes (a : Nat) : Nat := a / ONE_MINUTE

/-- Modelled from the spec: the total seconds of a duration (under the guards of
get_format, where it is only inspected with minutes = 0, this coincides with
seconds-within-minute). -/
def seconds (a : Nat) : Nat := a / ONE_SECOND

end Dur

/-- clock.rs: the field of the duration being edited. -/
inductive Time
  | Decis
  | Seconds
  | Minutes
  | Hours
deriving DecidableEq, Repr, Fintype

/-- clock.rs: the state of the clock state machine.  Editable carries the
previous mode that will be restored when editing ends. -/
inductive Mode
  | Initial
  | Tick
  | Pause
  | Editable (t : Time) (previous : Mode)
  | Done
deriving DecidableEq, Repr

/-- clock.rs: which fields are currently significant for display; the derived
Ord instance orders the variants in declaration order. -/
inductive Format
  | S
  | Ss
  | MSs
  | MmSs
  | HMmSs
  | HhMmSs
deriving DecidableEq, Repr, Fintype

/-- The rank of a Format in the derived total order S < Ss < MSs < MmSs < HMmSs < HhMmSs. -/
def Format.rank : Format → Nat
  | .S => 0
  | .Ss => 1
  | .MSs => 2
  | .MmSs => 3
  | .HMmSs => 4
  | .HhMmSs => 5

/-- The derived Ord comparison of Format, as a Boolean less-or-equal. -/
def Format.le (a b : Format) : Bool := decide (a.rank ≤ b.rank)

/-- clock.rs: the glyph style. -/
inductive Style
  | Full
  | Light
  | Medium
  | Dark
  | Thick
  | Cross
  | Braille
deriving DecidableEq, Repr

/-- clock.rs: Style::next, the fixed style cycle. -/
def Style.next : Style → Style
  | .Full => .Dark
  | .Dark => .Medium
  | .Medium => .Light
  | .Light => .Braille
  | .Braille => .Thick
  | .Thick => .Cross
  | .Cross => .Full

/-- clock.rs: Mode matches Editable (the test behind Clock::is_edit_mode). -/
def Mode.is_editable : Mode → Bool
  | .Editable _ _ => true
  | _ => false

/-- clock.rs: the Clock state (the PhantomData variant tag is dropped; the
countdown-specific operations are the ones defined below). -/
structure Clock where
  initial_value : Nat
  current_value : Nat
  tick_value : Nat
  mode : Mode
  format : Format
  style : Style
  with_decis : Bool
deriving DecidableEq, Repr

/-- clock.rs: the construction arguments. -/
structure ClockArgs where
  initial_value : Nat
  current_value : Nat
  tick_value : Nat
  style : Style
  with_decis : Bool

/-- clock.rs: Clock::get_format as a function of the current value. -/
def format_of_value (v : Nat) : Format :=
  if 10 ≤ Dur.hours v then .HhMmSs
  else if 1 ≤ Dur.hours v then .HMmSs
  else if 10 ≤ Dur.minutes v then .MmSs
  else if 1 ≤ Dur.minutes v then .MSs
  else if 10 ≤ Dur.seconds v then .Ss
  else .S

namespace Clock

/-- clock.rs: Clock::get_format (pure function of current_value). -/
def get_format (c : Clock) : Format := format_of_value c.current_value

/-- clock.rs: Clock::update_format. -/
def update_format (c : Clock) : Clock := { c with format := c.get_format }

/-- clock.rs: Clock::toggle_pause. -/
def toggle_pause (c : Clock) : Clock :=
  { c with mode := if c.mode = Mode.Tick then Mode.Pause else Mode.Tick }

/-- clock.rs: Clock::toggle_edit. -/
def toggle_edit (c : Clock) : Clock :=
  { c with mode :=
      match c.mode with
      | Mode.Editable _ prev =>
          if prev = Mode.Done ∧ 0 < c.current_value then Mode.Initial
          else if prev ≠ Mode.Done ∧ c.current_value = 0 then Mode.Done
          else prev
      | m =>
          if c.format.le Format.Ss then Mode.Editable Time.Seconds m
          else Mode.Editable Time.Minutes m }

/-- clock.rs: Clock::edit_current_up (the per-field guards and comments of the
source translate to the inequalities below; the saturating add is Dur.sat_add). -/
def edit_current_up (c : Clock) : Clock :=
  ({ c with current_value :=
      match c.mode with
      | Mode.Editable Time.Decis _ =>
          if c.current_value ≤ MAX_DURATION - ONE_DECI_SECOND
          then Dur.sat_add c.current_value ONE_DECI_SECOND
          else c.current_value
      | Mode.Editable Time.Seconds _ =>
          if c.current_value ≤ MAX_DURATION - ONE_SECOND
          then Dur.sat_add c.current_value ONE_SECOND
          else c.current_value
      | Mode.Editable Time.Minutes _ =>
          if c.current_value ≤ MAX_DURATION - ONE_MINUTE
          then Dur.sat_add c.current_value ONE_MINUTE
          else c.current_value
      | Mode.Editable Time.Hours _ =>
          if c.current_value < MAX_DURATION - ONE_HOUR
          then Dur.sat_add c.current_value ONE_HOUR
          else c.current_value
      | _ => c.current_value }).update_format

/-- clock.rs: Clock::update_mode (re-validates the edit cursor against the
current format; a single pass of the two guarded arms). -/
def update_mode (c : Clock) : Clock :=
  { c with mode :=
      match c.mode with
      | Mode.Editable Time.Hours prev =>
          if c.format.le Format.MmSs then Mode.Editable Time.Minutes prev
          else Mode.Editable Time.Hours prev
      | Mode.Editable Time.Minutes prev =>
          if c.format.le Format.Ss then Mode.Editable Time.Seconds prev
          else Mode.Editable Time.Minutes prev
      | m => m }

/-- clock.rs: Clock::edit_current_down (saturating subtraction, then
update_format and update_mode). -/
def edit_current_down (c : Clock) : Clock :=
  (({ c with current_value :=
      match c.mode with
      | Mode.Editable Time.Decis _ => Dur.sat_sub c.current_value ONE_DECI_SECOND
      | Mode.Editable Time.Seconds _ => Dur.sat_sub c.current_value ONE_SECOND
      | Mode.Editable Time.Minutes _ => Dur.sat_sub c.current_value ONE_MINUTE
      | Mode.Editable Time.Hours _ => Dur.sat_sub c.current_value ONE_HOUR
      | _ => c.current_value }).update_format).update_mode

/-- clock.rs: Clock::edit_mode_next (the Rust match guards, tried in order,
become nested conditionals). -/
def edit_mode_next (c : Clock) : Clock :=
  ({ c with mode :=
      match c.mode with
      | Mode.Editable Time.Decis prev => Mode.Editable Time.Seconds prev
      | Mode.Editable Time.Seconds prev =>
          if c.format.le Format.Ss && c.with_decis then Mode.Editable Time.Decis prev
          else if c.format.le Format.Ss then Mode.Editable Time.Seconds prev
          else Mode.Editable Time.Minutes prev
      | Mode.Editable Time.Minutes prev =>
          if c.format.le Format.MmSs && c.with_decis then Mode.Editable Time.Decis prev
          else if c.format.le Format.MmSs then Mode.Editable Time.Seconds prev
          else Mode.Editable Time.Hours prev
      | Mode.Editable Time.Hours prev =>
          if c.with_decis then Mode.Editable Time.Decis prev
          else Mode.Editable Time.Seconds prev
      | m => m }).update_format

/-- clock.rs: Clock::edit_mode_prev (the final guard format less-or-equal
HhMmSs of the source is always true, so it becomes the last else branch). -/
def edit_mode_prev (c : Clock) : Clock :=
  ({ c with mode :=
      match c.mode with
      | Mode.Editable Time.Decis prev =>
          if c.format.le Format.Ss then Mode.Editable Time.Seconds prev
          else if c.format.le Format.MmSs then Mode.Editable Time.Minutes prev
          else Mode.Editable Time.Hours prev
      | Mode.Editable Time.Seconds prev =>
          if c.with_decis then Mode.Editable Time.Decis prev
          else if c.format.le Format.Ss then Mode.Editable Time.Seconds prev
          else if c.format.le Format.MmSs then Mode.Editable Time.Minutes prev
          else Mode.Editable Time.Hours prev
      | Mode.Editable Time.Minutes prev => Mode.Editable Time.Seconds prev
      | Mode.Editable Time.Hours prev => Mode.Editable Time.Minutes prev
      | m => m }).update_format

/-- clock.rs: Clock::reset. -/
def reset (c : Clock) : Clock :=
  ({ c with mode := Mode.Initial, current_value := c.initial_value }).update_format

/-- clock.rs: Clock of Countdown, set_done. -/
def set_done (c : Clock) : Clock :=
  if c.current_value = 0 then { c with mode := Mode.Done } else c

/-- clock.rs: Clock of Countdown, tick. -/
def tick (c : Clock) : Clock :=
  if c.mode = Mode.Tick then
    (({ c with current_value := Dur.sat_sub c.current_value c.tick_value
      }).set_done).update_format
  else c

/-- clock.rs: Clock of Countdown, edit_next. -/
def edit_next (c : Clock) : Clock := c.edit_mode_next

/-- clock.rs: Clock of Countdown, edit_prev. -/
def edit_prev (c : Clock) : Clock := c.edit_mode_prev

/-- clock.rs: Clock of Countdown, edit_up (edit_current_up, then re-align
current_value down to initial_value if it exceeds it; the local variable of
the source is inlined). -/
def edit_up (c : Clock) : Clock :=
  if (c.edit_current_up).initial_value < (c.edit_current_up).current_value
  then { c.edit_current_up with current_value := (c.edit_current_up).initial_value }
  else c.edit_current_up

/-- clock.rs: Clock of Countdown, edit_down. -/
def edit_down (c : Clock) : Clock := c.edit_current_down

end Clock

/-- clock.rs: Clock of Countdown, new. -/
def countdown_new (args : ClockArgs) : Clock :=
  ({ initial_value := args.initial_value
     current_value := args.current_value
     tick_value := args.tick_value
     mode :=
       if args.current_value = 0 then Mode.Done
       else if args.current_value = args.initial_value then Mode.Initial
       else Mode.Pause
     format := Format.S
     style := args.style
     with_decis := args.with_decis : Clock }).update_format

/-- The exposed operations of a Countdown clock. -/
inductive Op
  | toggle_pause
  | toggle_edit
  | edit_next
  | edit_prev
  | edit_up
  | edit_down
  | tick
  | reset

/-- Apply one exposed operation. -/
def apply_op (c : Clock) : Op → Clock
  | .toggle_pause => c.toggle_pause
  | .toggle_edit => c.toggle_edit
  | .edit_next => c.edit_next
  | .edit_prev => c.edit_prev
  | .edit_up => c.edit_up
  | .edit_down => c.edit_down
  | .tick => c.tick
  | .reset => c.reset

/-- The states of a Countdown clock reachable from construction with the given
arguments by any sequence of the exposed operations. -/
inductive ReachableFrom (args : ClockArgs) : Clock → Prop
  | init : ReachableFrom args (countdown_new args)
  | step (c : Clock) (op : Op) : ReachableFrom args c → ReachableFrom args (apply_op c op)

/-! The widget layout (clock.rs, ClockWidget). -/

/-- clock.rs: DIGIT_SIZE. -/
def DIGIT_SIZE : Nat := 5

/-- clock.rs: DIGIT_WIDTH. -/
def DIGIT_WIDTH : Nat := DIGIT_SIZE

/-- clock.rs: DIGIT_HEIGHT (glyph plus one border row). -/
def DIGIT_HEIGHT : Nat := DIGIT_SIZE + 1

/-- clock.rs: COLON_WIDTH (incl. padding left + padding right). -/
def COLON_WIDTH : Nat := 4

/-- clock.rs: SPACE_WIDTH. -/
def SPACE_WIDTH : Nat := 1

/-- clock.rs: the add_decis closure of ClockWidget::get_horizontal_lengths. -/
def add_decis (lengths : List Nat) (with_decis : Bool) : List Nat :=
  if with_decis then lengths ++ [COLON_WIDTH, DIGIT_WIDTH] else lengths

/-- clock.rs: ClockWidget::get_horizontal_lengths. -/
def get_horizontal_lengths (format : Format) (with_decis : Bool) : List Nat :=
  match format with
  | .HhMmSs =>
      add_decis
        [DIGIT_WIDTH, SPACE_WIDTH, DIGIT_WIDTH, COLON_WIDTH, DIGIT_WIDTH, SPACE_WIDTH,
          DIGIT_WIDTH, COLON_WIDTH, DIGIT_WIDTH, SPACE_WIDTH, DIGIT_WIDTH] with_decis
  | .HMmSs =>
      add_decis
        [DIGIT_WIDTH, COLON_WIDTH, DIGIT_WIDTH, SPACE_WIDTH, DIGIT_WIDTH, COLON_WIDTH,
          DIGIT_WIDTH, SPACE_WIDTH, DIGIT_WIDTH] with_decis
  | .MmSs =>
      add_decis
        [DIGIT_WIDTH, SPACE_WIDTH, DIGIT_WIDTH, COLON_WIDTH, DIGIT_WIDTH, SPACE_WIDTH,
          DIGIT_WIDTH] with_decis
  | .MSs =>
      add_decis [DIGIT_WIDTH, COLON_WIDTH, DIGIT_WIDTH, SPACE_WIDTH, DIGIT_WIDTH] with_decis
  | .Ss => add_decis [DIGIT_WIDTH, SPACE_WIDTH, DIGIT_WIDTH] with_decis
  | .S => add_decis [DIGIT_WIDTH] with_decis

/-- clock.rs: ClockWidget::get_width (the sum of the horizontal lengths). -/
def get_width (format : Format) (with_decis : Bool) : Nat :=
  (get_horizontal_lengths format with_decis).sum

/-- clock.rs: ClockWidget::get_height. -/
def get_height : Nat := DIGIT_HEIGHT

/-! Definitions taken from the spec's words, for comparison with the code. -/

/-- Modelled from the spec: a Format's displayed fields cover all non-zero
magnitude of a value, per the thresholds of the format-selection rule
(hours at least 10 / at least 1, minutes at least 10 / at least 1, seconds at
least 10); deciseconds never affect format selection. -/
@[reducible] def format_covers (f : Format) (v : Nat) : Prop :=
  match f with
  | .S => Dur.hours v = 0 ∧ Dur.minutes v = 0 ∧ Dur.seconds v < 10
  | .Ss => Dur.hours v = 0 ∧ Dur.minutes v = 0
  | .MSs => Dur.hours v = 0 ∧ Dur.minutes v < 10
  | .MmSs => Dur.hours v = 0
  | .HMmSs => Dur.hours v < 10
  | .HhMmSs => True

/-- Modelled from the spec: whether a format shows the given time field.
Hours are shown from HMmSs up, minutes from MSs up; seconds are always shown;
decisecond display is governed by the with_decis flag, not by the format. -/
def time_shown_by (t : Time) (f : Format) : Bool :=
  match t with
  | .Hours => Format.HMmSs.le f
  | .Minutes => Format.MSs.le f
  | .Seconds => true
  | .Decis => true


/-- The single cursor re-validation pass of update_mode, as a function of the
edited field and the (already recomputed) format. -/
def update_cursor (f : Time) (g : Format) : Time :=
  match f with
  | .Hours => if g.le Format.MmSs then .Minutes else .Hours
  | .Minutes => if g.le Format.Ss then .Seconds else .Minutes
  | t => t

/-- No nested editing: an Editable mode never stores an Editable previous mode. -/
def mode_flat : Mode → Prop
  | .Editable _ p => p.is_editable = false
  | _ => True

/-! Concrete arguments and states used to instantiate or refute the claims. -/

/-- Construction arguments of a finished countdown (claim C1). -/
def c1args : ClockArgs := ⟨0, 0, 10, Style.Full, false⟩

/-- A concrete editable state refuting claim C2's decisecond threshold. -/
def c2ex : Clock :=
  ⟨3599990, 3599980, 10, Mode.Editable Time.Decis Mode.Initial, Format.HhMmSs,
    Style.Full, true⟩

/-- A concrete editable state used to instantiate the amended claim C2. -/
def c2w : Clock :=
  ⟨3000, 50, 10, Mode.Editable Time.Seconds Mode.Initial, Format.S, Style.Full, false⟩

/-- A concrete editable state used to instantiate claim C3. -/
def c3ex : Clock :=
  ⟨300, 50, 10, Mode.Editable Time.Seconds Mode.Pause, Format.S, Style.Full, false⟩

/-- A concrete running countdown used to instantiate claim C4. -/
def c4run : Clock := ⟨300, 30, 10, Mode.Tick, Format.Ss, Style.Full, false⟩

/-- A concrete paused countdown used to instantiate claim C4. -/
def c4pause : Clock := ⟨300, 30, 10, Mode.Pause, Format.Ss, Style.Full, false⟩

/-- Construction arguments whose current value exceeds the initial value
(claim C5). -/
def c5args : ClockArgs := ⟨0, 5, 10, Style.Full, false⟩

/-- Well-formed construction arguments used to instantiate the amended
claim C5. -/
def c5wargs : ClockArgs := ⟨300, 200, 10, Style.Full, false⟩

/-- A concrete editable state refuting claim C6's conclusion. -/
def c6ex : Clock :=
  ⟨36000, 36000, 10, Mode.Editable Time.Hours Mode.Initial, Format.HMmSs,
    Style.Full, false⟩

/-- A concrete editable state used to instantiate the amended claim C6. -/
def c6w : Clock :=
  ⟨650, 650, 10, Mode.Editable Time.Minutes Mode.Initial, Format.MSs, Style.Full, false⟩

/-- A concrete state refuting claim C7: mode Initial with current_value 0,
as produced by reset on a countdown whose initial value is zero. -/
def c7ex : Clock := ⟨0, 0, 10, Mode.Initial, Format.S, Style.Full, false⟩

/-- A concrete consistent paused state used to instantiate claim C7. -/
def c7w : Clock := ⟨300, 50, 10, Mode.Pause, Format.S, Style.Full, false⟩

/-- Construction arguments of a fresh unstarted countdown (claim C10). -/
def c10args : ClockArgs := ⟨300, 300, 10, Style.Full, false⟩

/-! Helper lemmas. -/

theorem sat_add_of_le (a b : Nat) (h : a + b ≤ MAX_DURATION) :
    Dur.sat_add a b = a + b := by
  unfold Dur.sat_add
  omega

theorem format_of_value_eq (v : Nat) :
    format_of_value v =
      if 360000 ≤ v then .HhMmSs
      else if 36000 ≤ v then .HMmSs
      else if 6000 ≤ v then .MmSs
      else if 600 ≤ v then .MSs
      else if 100 ≤ v then .Ss
      else .S := by
  unfold format_of_value Dur.hours Dur.minutes Dur.seconds ONE_HOUR ONE_MINUTE ONE_SECOND
  split_ifs <;> first | rfl | (exfalso; omega)

theorem toggle_pause_mode_cases (c : Clock) :
    (c.toggle_pause).mode = Mode.Pause ∨ (c.toggle_pause).mode = Mode.Tick := by
  unfold Clock.toggle_pause
  split_ifs <;> simp

theorem toggle_edit_exit (c : Clock) (t : Time) (p : Mode)
    (h : c.mode = Mode.Editable t p) :
    (c.toggle_edit).mode = Mode.Initial ∨
    ((c.toggle_edit).mode = Mode.Done ∧ c.current_value = 0) ∨
    ((c.toggle_edit).mode = p ∧ (p = Mode.Done → c.current_value = 0)) := by
  simp only [Clock.toggle_edit, h]
  split_ifs with h1 h2
  · exact Or.inl rfl
  · exact Or.inr (Or.inl ⟨rfl, h2.2⟩)
  · refine Or.inr (Or.inr ⟨rfl, fun hp => ?_⟩)
    have h3 : ¬ 0 < c.current_value := fun hlt => h1 ⟨hp, hlt⟩
    omega

theorem toggle_edit_enter (c : Clock) (h : c.mode.is_editable = false) :
    ∃ t, (c.toggle_edit).mode = Mode.Editable t c.mode := by
  cases hm : c.mode
  case Editable t p =>
    rw [hm] at h
    simp [Mode.is_editable] at h
  all_goals
    simp only [Clock.toggle_edit, hm]
    split_ifs <;> exact ⟨_, rfl⟩

theorem mode_flat_of_not_editable (m : Mode) (h : m.is_editable = false) :
    mode_flat m := by
  cases m <;> trivial

theorem edit_mode_next_mode (c : Clock) :
    (∃ t p, c.mode = Mode.Editable t p ∧
      ∃ t', (c.edit_mode_next).mode = Mode.Editable t' p) ∨
    (c.edit_mode_next).mode = c.mode := by
  cases hm : c.mode
  case Editable t p =>
    refine Or.inl ⟨t, p, rfl, ?_⟩
    cases t <;>
      simp only [Clock.edit_mode_next, Clock.update_format, hm] <;>
      first | exact ⟨_, rfl⟩ | (split_ifs <;> exact ⟨_, rfl⟩)
  all_goals
    refine Or.inr ?_
    simp only [Clock.edit_mode_next, Clock.update_format, hm]

theorem edit_mode_prev_mode (c : Clock) :
    (∃ t p, c.mode = Mode.Editable t p ∧
      ∃ t', (c.edit_mode_prev).mode = Mode.Editable t' p) ∨
    (c.edit_mode_prev).mode = c.mode := by
  cases hm : c.mode
  case Editable t p =>
    refine Or.inl ⟨t, p, rfl, ?_⟩
    cases t <;>
      simp only [Clock.edit_mode_prev, Clock.update_format, hm] <;>
      first | exact ⟨_, rfl⟩ | (split_ifs <;> exact ⟨_, rfl⟩)
  all_goals
    refine Or.inr ?_
    simp only [Clock.edit_mode_prev, Clock.update_format, hm]

theorem update_mode_mode (c : Clock) (f : Time) (p : Mode)
    (h : c.mode = Mode.Editable f p) :
    (c.update_mode).mode = Mode.Editable (update_cursor f c.format) p := by
  cases f <;>
    simp only [Clock.update_mode, update_cursor, h] <;>
    split_ifs <;>
    rfl

theorem edit_current_down_mode (c : Clock) :
    (∃ t p, c.mode = Mode.Editable t p ∧
      ∃ t', (c.edit_current_down).mode = Mode.Editable t' p) ∨
    (c.edit_current_down).mode = c.mode := by
  cases hm : c.mode
  case Editable t p =>
    exact Or.inl ⟨t, p, rfl, update_cursor t _, update_mode_mode _ t p hm⟩
  all_goals
    refine Or.inr ?_
    simp only [Clock.edit_current_down, Clock.update_mode, Clock.update_format, hm]

theorem edit_current_down_current_le (c : Clock) :
    (c.edit_current_down).current_value ≤ c.current_value := by
  cases hm : c.mode
  case Editable t p =>
    cases t <;>
      simp only [Clock.edit_current_down, Clock.update_mode, Clock.update_format,
        Dur.sat_sub, hm] <;>
      omega
  all_goals
    simp only [Clock.edit_current_down, Clock.update_mode, Clock.update_format, hm]
    omega

theorem edit_current_up_current_of_not_editable (c : Clock)
    (h : c.mode.is_editable = false) :
    (c.edit_current_up).current_value = c.current_value := by
  cases hm : c.mode
  case Editable t p =>
    rw [hm] at h
    simp [Mode.is_editable] at h
  all_goals simp only [Clock.edit_current_up, Clock.update_format, hm]

theorem edit_up_mode (c : Clock) : (c.edit_up).mode = c.mode := by
  unfold Clock.edit_up
  split_ifs <;> rfl

theorem edit_up_initial (c : Clock) :
    (c.edit_up).initial_value = c.initial_value := by
  unfold Clock.edit_up
  split_ifs <;> rfl

theorem edit_up_current (c : Clock) :
    (c.edit_up).current_value =
      min (c.edit_current_up).current_value c.initial_value := by
  unfold Clock.edit_up
  have h1 : (c.edit_current_up).initial_value = c.initial_value := rfl
  split_ifs with h
  · show (c.edit_current_up).initial_value = _
    rw [h1] at h ⊢
    omega
  · rw [h1] at h
    omega

theorem tick_fields (c : Clock) :
    (c.mode ≠ Mode.Tick ∧ c.tick = c) ∨
    (c.mode = Mode.Tick ∧
      (c.tick).current_value = c.current_value - c.tick_value ∧
      (c.tick).initial_value = c.initial_value ∧
      (((c.tick).mode = Mode.Done ∧ (c.tick).current_value = 0) ∨
        (c.tick).mode = Mode.Tick)) := by
  by_cases h : c.mode = Mode.Tick
  · refine Or.inr ⟨h, ?_, ?_, ?_⟩ <;>
      by_cases h0 : c.current_value - c.tick_value = 0 <;>
        simp [Clock.tick, Clock.set_done, Clock.update_format, Dur.sat_sub, h, h0]
  · exact Or.inl ⟨h, by simp [Clock.tick, h]⟩

theorem reset_mode (c : Clock) : (c.reset).mode = Mode.Initial := rfl

theorem countdown_new_fields (args : ClockArgs) :
    (countdown_new args).current_value = args.current_value ∧
    (countdown_new args).initial_value = args.initial_value ∧
    (((countdown_new args).mode = Mode.Done ∧ args.current_value = 0) ∨
      (((countdown_new args).mode = Mode.Initial ∨
          (countdown_new args).mode = Mode.Pause) ∧ args.current_value ≠ 0)) := by
  refine ⟨rfl, rfl, ?_⟩
  by_cases h0 : args.current_value = 0
  · exact Or.inl ⟨by simp [countdown_new, Clock.update_format, h0], h0⟩
  · refine Or.inr ⟨?_, h0⟩
    by_cases h1 : args.current_value = args.initial_value
    · refine Or.inl ?_
      simp only [countdown_new, Clock.update_format]
      rw [if_neg h0, if_pos h1]
    · refine Or.inr ?_
      simp only [countdown_new, Clock.update_format]
      rw [if_neg h0, if_neg h1]

/-! Claim C1. -/

/-- Counterexample to claim C1 as stated: from a countdown constructed at
value zero (mode Done), toggle_pause reaches a state with current_value 0
whose mode is Tick, not Done, so Done is not equivalent to value zero over
the reachable states. -/
theorem claim1_counterexample :
    ReachableFrom c1args ((countdown_new c1args).toggle_pause) ∧
    ((countdown_new c1args).toggle_pause).current_value = 0 ∧
    ((countdown_new c1args).toggle_pause).mode ≠ Mode.Done :=
  ⟨ReachableFrom.step _ Op.toggle_pause ReachableFrom.init, by decide, by decide⟩

/-- Claim C1 (amended): for a Countdown clock, in every state reachable from
construction by any sequence of the exposed operations, if the mode is Done
then current_value = 0 (the converse fails: pausing or editing a finished
clock yields non-Done modes at value zero). -/
theorem claim1_done_implies_zero (args : ClockArgs) (c : Clock)
    (h : ReachableFrom args c) : c.mode = Mode.Done → c.current_value = 0 := by
  induction h with
  | init =>
      intro h
      rcases (countdown_new_fields args).2.2 with ⟨h1, h2⟩ | ⟨h1, h2⟩
      · rw [(countdown_new_fields args).1]
        exact h2
      · rcases h1 with h1 | h1 <;> rw [h1] at h <;> simp at h
  | step c op hc ih =>
      cases op
      case toggle_pause =>
        intro h
        simp only [apply_op] at h
        rcases toggle_pause_mode_cases c with h1 | h1 <;> rw [h1] at h <;> simp at h
      case toggle_edit =>
        intro h
        simp only [apply_op] at h ⊢
        show c.current_value = 0
        cases hm : c.mode
        case Editable t p =>
          rcases toggle_edit_exit c t p hm with h1 | ⟨h1, h2⟩ | ⟨h1, h2⟩
          · rw [h1] at h
            simp at h
          · exact h2
          · rw [h1] at h
            exact h2 h
        all_goals
          obtain ⟨t, he⟩ := toggle_edit_enter c (by rw [hm]; rfl)
          rw [he] at h
          simp at h
      case edit_next =>
        intro h
        simp only [apply_op, Clock.edit_next] at h ⊢
        show c.current_value = 0
        rcases edit_mode_next_mode c with ⟨t, p, hm, t', h1⟩ | h1
        · rw [h1] at h
          simp at h
        · rw [h1] at h
          exact ih h
      case edit_prev =>
        intro h
        simp only [apply_op, Clock.edit_prev] at h ⊢
        show c.current_value = 0
        rcases edit_mode_prev_mode c with ⟨t, p, hm, t', h1⟩ | h1
        · rw [h1] at h
          simp at h
        · rw [h1] at h
          exact ih h
      case edit_up =>
        intro h
        simp only [apply_op] at h ⊢
        rw [edit_up_mode] at h
        rw [edit_up_current, edit_current_up_current_of_not_editable c (by rw [h]; rfl),
          ih h]
        omega
      case edit_down =>
        intro h
        simp only [apply_op, Clock.edit_down] at h ⊢
        rcases edit_current_down_mode c with ⟨t, p, hm, t', h1⟩ | h1
        · rw [h1] at h
          simp at h
        · rw [h1] at h
          have h2 := ih h
          have h3 := edit_current_down_current_le c
          omega
      case tick =>
        intro h
        simp only [apply_op] at h ⊢
        rcases tick_fields c with ⟨h1, h2⟩ | ⟨h1, h2, h3, h4⟩
        · rw [h2] at h ⊢
          exact ih h
        · rcases h4 with ⟨hd, hz⟩ | hT
          · exact hz
          · rw [hT] at h
            simp at h
      case reset =>
        intro h
        simp only [apply_op] at h
        rw [reset_mode] at h
        simp at h

/-- Witness for the amended claim C1: a freshly constructed finished
countdown has mode Done, hence value zero. -/
theorem claim1_witness : (countdown_new c1args).current_value = 0 :=
  claim1_done_implies_zero c1args _ ReachableFrom.init (by decide)

/-! Claim C2. -/

/-- Counterexample to claim C2 as stated: with the cursor on deciseconds at
current_value 99:59:58.0 — within two seconds of the absolute maximum, so
above the claimed decisecond cap — edit_current_up is not a no-op: it adds
one decisecond. -/
theorem claim2_counterexample :
    c2ex.mode = Mode.Editable Time.Decis Mode.Initial ∧
    MAX_DURATION - 20 < c2ex.current_value ∧
    (c2ex.edit_current_up).current_value = c2ex.current_value + ONE_DECI_SECOND :=
  ⟨rfl, by decide, by decide⟩

/-- Claim C2 (amended): when mode is Editable on field f, edit_current_up adds
exactly one unit of f (one decisecond, second, minute, or hour) to
current_value and is otherwise a no-op, with per-field thresholds: deciseconds
capped one decisecond below the absolute maximum 99:59:59, seconds one second
below it, minutes one minute below it, and hours capped strictly below one
hour under the maximum. -/
theorem claim2_edit_current_up (c : Clock) (f : Time) (p : Mode)
    (h : c.mode = Mode.Editable f p) :
    (c.edit_current_up).current_value =
      match f with
      | .Decis =>
          if c.current_value ≤ MAX_DURATION - ONE_DECI_SECOND
          then c.current_value + ONE_DECI_SECOND else c.current_value
      | .Seconds =>
          if c.current_value ≤ MAX_DURATION - ONE_SECOND
          then c.current_value + ONE_SECOND else c.current_value
      | .Minutes =>
          if c.current_value ≤ MAX_DURATION - ONE_MINUTE
          then c.current_value + ONE_MINUTE else c.current_value
      | .Hours =>
          if c.current_value < MAX_DURATION - ONE_HOUR
          then c.current_value + ONE_HOUR else c.current_value := by
  cases f <;>
    simp only [Clock.edit_current_up, Clock.update_format, h] <;>
    split_ifs with h1 <;>
    first
      | (apply sat_add_of_le
         revert h1
         simp only [MAX_DURATION, ONE_DECI_SECOND, ONE_SECOND, ONE_MINUTE, ONE_HOUR,
           MINS_PER_HOUR, SECS_PER_MINUTE]
         omega)
      | rfl

/-- Witness for the amended claim C2 at a concrete editable state. -/
theorem claim2_witness :
    (c2w.edit_current_up).current_value =
      if c2w.current_value ≤ MAX_DURATION - ONE_SECOND
      then c2w.current_value + ONE_SECOND else c2w.current_value :=
  claim2_edit_current_up c2w Time.Seconds Mode.Initial rfl

/-! Claim C3. -/

/-- Claim C3: toggle_edit from Editable(_, previous) restores previous, except
that a previous of Done with a nonzero current_value becomes Initial, and a
previous other than Done with a zero current_value becomes Done. -/
theorem claim3_toggle_edit_exit (c : Clock) (f : Time) (p : Mode)
    (h : c.mode = Mode.Editable f p) :
    (c.toggle_edit).mode =
      if p = Mode.Done ∧ 0 < c.current_value then Mode.Initial
      else if p ≠ Mode.Done ∧ c.current_value = 0 then Mode.Done
      else p := by
  simp only [Clock.toggle_edit, h]

/-- Witness for claim C3 at a concrete editable state. -/
theorem claim3_witness :
    (c3ex.toggle_edit).mode =
      if Mode.Pause = Mode.Done ∧ 0 < c3ex.current_value then Mode.Initial
      else if Mode.Pause ≠ Mode.Done ∧ c3ex.current_value = 0 then Mode.Done
      else Mode.Pause :=
  claim3_toggle_edit_exit c3ex Time.Seconds Mode.Pause rfl

/-! Claim C4. -/

/-- Claim C4: countdown tick leaves the clock unchanged unless mode is Tick;
in mode Tick it replaces current_value by current_value saturating-minus
tick_value, sets mode to Done exactly when the new value is zero, and
recomputes format from the new value; no other field changes. -/
theorem claim4_tick (c : Clock) :
    (c.mode ≠ Mode.Tick → c.tick = c) ∧
    (c.mode = Mode.Tick →
      (c.tick).current_value = c.current_value - c.tick_value ∧
      ((c.tick).mode = Mode.Done ↔ c.current_value - c.tick_value = 0) ∧
      (c.tick).format = format_of_value (c.current_value - c.tick_value) ∧
      (c.tick).initial_value = c.initial_value ∧
      (c.tick).tick_value = c.tick_value ∧
      (c.tick).style = c.style ∧
      (c.tick).with_decis = c.with_decis) := by
  constructor
  · intro h
    simp [Clock.tick, h]
  · intro h
    by_cases h0 : c.current_value - c.tick_value = 0 <;>
      simp [Clock.tick, Clock.set_done, Clock.update_format, Clock.get_format,
        Dur.sat_sub, h, h0]

/-- Witness for claim C4 at concrete paused and running countdowns. -/
theorem claim4_witness :
    c4pause.tick = c4pause ∧
    ((c4run.tick).current_value = c4run.current_value - c4run.tick_value ∧
      ((c4run.tick).mode = Mode.Done ↔ c4run.current_value - c4run.tick_value = 0) ∧
      (c4run.tick).format = format_of_value (c4run.current_value - c4run.tick_value) ∧
      (c4run.tick).initial_value = c4run.initial_value ∧
      (c4run.tick).tick_value = c4run.tick_value ∧
      (c4run.tick).style = c4run.style ∧
      (c4run.tick).with_decis = c4run.with_decis) :=
  ⟨(claim4_tick c4pause).1 (by decide), (claim4_tick c4run).2 rfl⟩

/-! Claim C5. -/

/-- Counterexample to claim C5 as stated: a countdown constructed with
current_value 5 deciseconds and initial_value 0 is itself a reachable state
whose current_value exceeds initial_value (construction does not clamp). -/
theorem claim5_counterexample :
    ReachableFrom c5args (countdown_new c5args) ∧
    (countdown_new c5args).initial_value < (countdown_new c5args).current_value :=
  ⟨ReachableFrom.init, by decide⟩

/-- Claim C5 (amended): provided the countdown is constructed with
current_value ≤ initial_value, current_value never exceeds initial_value in
any reachable state; and edit_up first applies edit_current_up and then pulls
current_value back down to exactly initial_value whenever it would exceed
it. -/
theorem claim5_budget (args : ClockArgs)
    (hargs : args.current_value ≤ args.initial_value)
    (c : Clock) (h : ReachableFrom args c) :
    c.current_value ≤ c.initial_value ∧
    (c.edit_up).current_value =
      min (c.edit_current_up).current_value c.initial_value := by
  refine ⟨?_, edit_up_current c⟩
  induction h with
  | init => exact hargs
  | step c op hc ih =>
      cases op
      case toggle_pause => exact ih
      case toggle_edit => exact ih
      case edit_next => exact ih
      case edit_prev => exact ih
      case edit_up =>
        show (c.edit_up).current_value ≤ (c.edit_up).initial_value
        rw [edit_up_current, edit_up_initial]
        omega
      case edit_down =>
        show (c.edit_current_down).current_value ≤ (c.edit_current_down).initial_value
        have h3 := edit_current_down_current_le c
        have h4 : (c.edit_current_down).initial_value = c.initial_value := rfl
        omega
      case tick =>
        show (c.tick).current_value ≤ (c.tick).initial_value
        rcases tick_fields c with ⟨h1, h2⟩ | ⟨h1, h2, h3, h4⟩
        · rw [h2]
          exact ih
        · rw [h2, h3]
          omega
      case reset => exact Nat.le_refl _

/-- Witness for the amended claim C5 at a concrete well-formed countdown. -/
theorem claim5_witness :
    (countdown_new c5wargs).current_value ≤ (countdown_new c5wargs).initial_value ∧
    ((countdown_new c5wargs).edit_up).current_value =
      min ((countdown_new c5wargs).edit_current_up).current_value
        (countdown_new c5wargs).initial_value :=
  claim5_budget c5wargs (by decide) _ ReachableFrom.init

/-! Claim C6. -/

/-- Counterexample to claim C6 as stated: editing Hours down from exactly one
hour yields value zero and format S; the single re-validation pass moves the
cursor from Hours to Minutes, but Minutes is not shown by format S. -/
theorem claim6_counterexample :
    (c6ex.edit_current_down).mode = Mode.Editable Time.Minutes Mode.Initial ∧
    (c6ex.edit_current_down).format = Format.S ∧
    time_shown_by Time.Minutes Format.S = false :=
  ⟨by decide, by decide, rfl⟩

/-- Claim C6 (amended): after edit_current_down (format recomputed, then the
cursor re-validated by update_mode: Hours moves to Minutes when the new format
no longer shows hours, Minutes moves to Seconds when it no longer shows
minutes), the cursor of an Editable mode points at a field shown by the new
format, except when the starting field was Hours and the new format shows
neither hours nor minutes (format at most Ss): the single re-validation pass
then leaves the cursor on Minutes, which the new format does not show. -/
theorem claim6_edit_down_cursor (c : Clock) (f : Time) (p : Mode)
    (h : c.mode = Mode.Editable f p) :
    ∃ f', (c.edit_current_down).mode = Mode.Editable f' p ∧
      ((f = Time.Hours ∧ (c.edit_current_down).format.le Format.Ss = true) →
        f' = Time.Minutes) ∧
      (¬(f = Time.Hours ∧ (c.edit_current_down).format.le Format.Ss = true) →
        time_shown_by f' ((c.edit_current_down).format) = true) := by
  have key : ∀ (f₀ : Time) (g : Format),
      ((f₀ = Time.Hours ∧ g.le Format.Ss = true) →
        update_cursor f₀ g = Time.Minutes) ∧
      (¬(f₀ = Time.Hours ∧ g.le Format.Ss = true) →
        time_shown_by (update_cursor f₀ g) g = true) := by decide
  refine ⟨update_cursor f ((c.edit_current_down).format), ?_, (key f _).1, (key f _).2⟩
  exact update_mode_mode _ f p h

/-- Witness for the amended claim C6 at a concrete editable state. -/
theorem claim6_witness :
    ∃ f', (c6w.edit_current_down).mode = Mode.Editable f' Mode.Initial ∧
      ((Time.Minutes = Time.Hours ∧
          (c6w.edit_current_down).format.le Format.Ss = true) →
        f' = Time.Minutes) ∧
      (¬(Time.Minutes = Time.Hours ∧
          (c6w.edit_current_down).format.le Format.Ss = true) →
        time_shown_by f' ((c6w.edit_current_down).format) = true) :=
  claim6_edit_down_cursor c6w Time.Minutes Mode.Initial rfl

/-! Claim C7. -/

/-- Counterexample to claim C7 as stated: from mode Initial with
current_value 0, two toggle_edit calls (which never change current_value)
end in mode Done, not the original Initial. -/
theorem claim7_counterexample :
    c7ex.mode = Mode.Initial ∧
    (c7ex.toggle_edit).current_value = c7ex.current_value ∧
    ((c7ex.toggle_edit).toggle_edit).mode = Mode.Done ∧
    ((c7ex.toggle_edit).toggle_edit).mode ≠ c7ex.mode :=
  ⟨rfl, rfl, by decide, by decide⟩

/-- Claim C7 (amended): for every starting non-Editable mode that is
consistent with the current value (the mode is Done exactly when
current_value = 0), calling toggle_edit twice in a row with no intervening
change to current_value leaves the mode exactly equal to the original
mode. -/
theorem claim7_toggle_edit_twice (c : Clock)
    (hne : c.mode.is_editable = false)
    (hiff : c.mode = Mode.Done ↔ c.current_value = 0) :
    ((c.toggle_edit).toggle_edit).mode = c.mode := by
  cases hm : c.mode
  case Editable t p =>
    rw [hm] at hne
    simp [Mode.is_editable] at hne
  case Done =>
    have h0 : c.current_value = 0 := hiff.mp hm
    by_cases hf : c.format.le Format.Ss <;>
      simp [Clock.toggle_edit, hm, hf, h0]
  all_goals
    have h0 : c.current_value ≠ 0 := fun hz =>
      Mode.noConfusion ((hiff.mpr hz).symm.trans hm)
    by_cases hf : c.format.le Format.Ss <;>
      simp [Clock.toggle_edit, hm, hf, h0, Nat.pos_of_ne_zero h0]

/-- Witness for the amended claim C7 at a concrete paused state. -/
theorem claim7_witness : ((c7w.toggle_edit).toggle_edit).mode = c7w.mode :=
  claim7_toggle_edit_twice c7w (by decide) (by decide)

/-! Claim C8. -/

/-- Claim C8: get_format is a pure function of current_value; it is monotonic
in magnitude (in the Format ordering S, Ss, MSs, MmSs, HMmSs, HhMmSs), and the
returned Format is the minimal one whose displayed fields cover all non-zero
magnitude per the thresholds of the selection rule. -/
theorem claim8_format :
    (∀ c : Clock, c.get_format = format_of_value c.current_value) ∧
    (∀ v₁ v₂, v₁ ≤ v₂ → v₂ ≤ MAX_DURATION →
      (format_of_value v₁).rank ≤ (format_of_value v₂).rank) ∧
    (∀ v, v ≤ MAX_DURATION →
      format_covers (format_of_value v) v ∧
      ∀ f, format_covers f v → (format_of_value v).rank ≤ f.rank) := by
  refine ⟨fun c => rfl, fun v₁ v₂ h hm => ?_, fun v hv => ?_⟩
  · rw [format_of_value_eq, format_of_value_eq]
    split_ifs <;> first | decide | (exfalso; omega)
  · rw [format_of_value_eq]
    split_ifs with h1 h2 h3 h4 h5 <;>
      refine ⟨?_, fun f hf => ?_⟩ <;>
      first
        | (simp only [format_covers, Dur.hours, Dur.minutes, Dur.seconds,
             ONE_HOUR, ONE_MINUTE, ONE_SECOND]
           all_goals first | trivial | omega)
        | (cases f <;>
            simp only [format_covers, Dur.hours, Dur.minutes, Dur.seconds,
              ONE_HOUR, ONE_MINUTE, ONE_SECOND] at hf <;>
            simp only [Format.rank] <;>
            omega)

/-- Witness for claim C8 at concrete values. -/
theorem claim8_witness :
    (format_of_value 3).rank ≤ (format_of_value 100).rank ∧
    format_covers (format_of_value 100) 100 :=
  ⟨claim8_format.2.1 3 100 (by decide) (by decide),
    (claim8_format.2.2 100 (by decide)).1⟩

/-! Claim C9. -/

/-- Claim C9: the rendered width for Format.Ss without deciseconds is exactly
5+1+5 = 11 cells; in general get_width is the sum of the fixed segment widths
(digit 5, colon 4, space 1), with a colon-width 4 and digit-width 5 appended
when with_decis is set; the height is always 6. -/
theorem claim9_widget_width :
    get_width Format.Ss false = 11 ∧
    (∀ f d, get_width f d = (get_horizontal_lengths f d).sum) ∧
    (∀ f, get_width f true = get_width f false + COLON_WIDTH + DIGIT_WIDTH) ∧
    get_height = 6 := by
  refine ⟨by decide, fun f d => rfl, fun f => ?_, by decide⟩
  cases f <;> decide

/-! Claim C10. -/

theorem flat_invariant (args : ClockArgs) (c : Clock) (h : ReachableFrom args c) :
    mode_flat c.mode := by
  induction h with
  | init =>
      rcases (countdown_new_fields args).2.2 with ⟨h1, _⟩ | ⟨h1, _⟩
      · rw [h1]
        trivial
      · rcases h1 with h1 | h1 <;> rw [h1] <;> trivial
  | step c op hc ih =>
      cases op
      case toggle_pause =>
        show mode_flat (c.toggle_pause).mode
        rcases toggle_pause_mode_cases c with h1 | h1 <;> rw [h1] <;> trivial
      case toggle_edit =>
        show mode_flat (c.toggle_edit).mode
        cases hm : c.mode
        case Editable t p =>
          have hp : p.is_editable = false := by
            have h2 := ih
            rw [hm] at h2
            exact h2
          rcases toggle_edit_exit c t p hm with h1 | ⟨h1, _⟩ | ⟨h1, _⟩ <;> rw [h1]
          · trivial
          · trivial
          · exact mode_flat_of_not_editable p hp
        all_goals
          obtain ⟨t, he⟩ := toggle_edit_enter c (by rw [hm]; rfl)
          rw [he]
          show c.mode.is_editable = false
          rw [hm]
          rfl
      case edit_next =>
        show mode_flat (c.edit_mode_next).mode
        rcases edit_mode_next_mode c with ⟨t, p, hm, t', h1⟩ | h1
        · rw [h1]
          show p.is_editable = false
          have h2 := ih
          rw [hm] at h2
          exact h2
        · rw [h1]
          exact ih
      case edit_prev =>
        show mode_flat (c.edit_mode_prev).mode
        rcases edit_mode_prev_mode c with ⟨t, p, hm, t', h1⟩ | h1
        · rw [h1]
          show p.is_editable = false
          have h2 := ih
          rw [hm] at h2
          exact h2
        · rw [h1]
          exact ih
      case edit_up =>
        show mode_flat (c.edit_up).mode
        rw [edit_up_mode]
        exact ih
      case edit_down =>
        show mode_flat (c.edit_current_down).mode
        rcases edit_current_down_mode c with ⟨t, p, hm, t', h1⟩ | h1
        · rw [h1]
          show p.is_editable = false
          have h2 := ih
          rw [hm] at h2
          exact h2
        · rw [h1]
          exact ih
      case tick =>
        show mode_flat (c.tick).mode
        rcases tick_fields c with ⟨h1, h2⟩ | ⟨h1, h2, h3, h4⟩
        · rw [h2]
          exact ih
        · rcases h4 with ⟨hd, _⟩ | hT
          · rw [hd]
            trivial
          · rw [hT]
            trivial
      case reset =>
        show mode_flat (c.reset).mode
        rw [reset_mode]
        trivial

/-- Claim C10: in every reachable state, an Editable mode never stores an
Editable previous mode: toggle_edit from an Editable mode always exits rather
than nesting, and edit_next / edit_prev preserve the stored previous mode
unchanged, so edit nesting depth never exceeds one. -/
theorem claim10_no_nested_edit (args : ClockArgs) (c : Clock)
    (h : ReachableFrom args c) :
    mode_flat c.mode ∧
    (∀ t p, c.mode = Mode.Editable t p →
      (c.toggle_edit).mode.is_editable = false ∧
      (∃ t', (c.edit_next).mode = Mode.Editable t' p) ∧
      (∃ t', (c.edit_prev).mode = Mode.Editable t' p)) := by
  refine ⟨flat_invariant args c h, fun t p hm => ?_⟩
  have hp : p.is_editable = false := by
    have h2 := flat_invariant args c h
    rw [hm] at h2
    exact h2
  refine ⟨?_, ?_, ?_⟩
  · rcases toggle_edit_exit c t p hm with h1 | ⟨h1, _⟩ | ⟨h1, _⟩ <;> rw [h1]
    · rfl
    · rfl
    · exact hp
  · rcases edit_mode_next_mode c with ⟨t0, p0, hm0, t', h1⟩ | h1
    · have he : Mode.Editable t p = Mode.Editable t0 p0 := hm.symm.trans hm0
      injection he with e1 e2
      rw [← e2] at h1
      exact ⟨t', h1⟩
    · exact ⟨t, h1.trans hm⟩
  · rcases edit_mode_prev_mode c with ⟨t0, p0, hm0, t', h1⟩ | h1
    · have he : Mode.Editable t p = Mode.Editable t0 p0 := hm.symm.trans hm0
      injection he with e1 e2
      rw [← e2] at h1
      exact ⟨t', h1⟩
    · exact ⟨t, h1.trans hm⟩

/-- Witness for claim C10 at a concrete reachable editable state. -/
theorem claim10_witness :
    mode_flat ((countdown_new c10args).toggle_edit).mode :=
  (claim10_no_nested_edit c10args _
    (ReachableFrom.step _ Op.toggle_edit ReachableFrom.init)).1

end Timr
